import Mathlib

-- Shallow embedding of eopod's CLI core (src/eopod/_eopod_cli.py): the
-- command line builder list2cmdline, the remote command executor's
-- command rewriting and argument vector, the retry/timeout controller
-- of the `run` command, the fleet fan-out scan of `kill_tpu`, the kill
-- commands, and the `get_status` slice status query.

-- ---------------------------------------------------------------------
-- Command line builder: list2cmdline (source lines 54-81).
-- Arguments are modelled as lists of characters; os.fsdecode is the
-- identity on str inputs.  bs_buf only ever holds backslashes, so it is
-- modelled by its length.
-- ---------------------------------------------------------------------

def bsChar : Char := '\\'

def qChar : Char := '"'

-- needquote = (" " in arg) or ("\t" in arg) or not arg
def needquote (arg : List Char) : Bool :=
  arg.contains ' ' || arg.contains '\t' || arg.isEmpty

-- The inner `for c in arg` loop of list2cmdline.  `bs` is len(bs_buf)
-- on entry; the result is the emitted text together with the final
-- len(bs_buf).  On '"', the code appends "\\" * len(bs_buf) * 2 and
-- then the two characters \" ; on any other character it flushes
-- bs_buf and appends the character.
def argLoop (bs : Nat) : List Char → List Char × Nat
  | [] => ([], bs)
  | c :: cs =>
    if c = bsChar then
      argLoop (bs + 1) cs
    else if c = qChar then
      let r := argLoop 0 cs
      (List.replicate (bs * 2) bsChar ++ bsChar :: qChar :: r.1, r.2)
    else
      let r := argLoop 0 cs
      (List.replicate bs bsChar ++ c :: r.1, r.2)

-- Per-argument emission: opening quote if needquote, the loop body,
-- the trailing bs_buf (the `if bs_buf: result.extend(bs_buf)` line),
-- and - only when quoted - bs_buf once more followed by the closing
-- quote (bs_buf is not cleared between the two extends in the source).
def quoteArg (arg : List Char) : List Char :=
  let r := argLoop 0 arg
  if needquote arg then
    qChar :: (r.1 ++ List.replicate r.2 bsChar ++ (List.replicate r.2 bsChar ++ [qChar]))
  else
    r.1 ++ List.replicate r.2 bsChar

-- `result.append(" ")` before every argument but the first.
def list2cmdline (seq : List (List Char)) : List Char :=
  List.intercalate [' '] (seq.map quoteArg)

-- Spec-side rendition of the same builder, written from the spec's
-- words (section 4.1): a run of k backslashes immediately preceding a
-- double quote becomes 2k backslashes followed by an escaped quote;
-- backslashes not preceding a quote pass through literally; a trailing
-- run of backslashes in a quoted argument is doubled before the
-- closing quote.  `run` counts the pending backslash run.
def specEsc (quoted : Bool) (run : Nat) : List Char → List Char
  | [] => List.replicate (if quoted then run * 2 else run) bsChar
  | c :: cs =>
    if c = bsChar then
      specEsc quoted (run + 1) cs
    else if c = qChar then
      List.replicate (run * 2) bsChar ++ bsChar :: qChar :: specEsc quoted 0 cs
    else
      List.replicate run bsChar ++ c :: specEsc quoted 0 cs

-- Spec-side per-argument form: exactly the arguments containing a
-- space or a tab, or that are empty, are wrapped in double quotes.
def quoteArgSpec (arg : List Char) : List Char :=
  if needquote arg then
    qChar :: (specEsc true 0 arg ++ [qChar])
  else
    specEsc false 0 arg

def list2cmdlineSpec (seq : List (List Char)) : List Char :=
  List.intercalate [' '] (seq.map quoteArgSpec)

-- ---------------------------------------------------------------------
-- Remote command executor: command rewriting and argument vector
-- (TPUManager.execute_command, source lines 132-188).
-- ---------------------------------------------------------------------

-- Line 139-140: if background, the command is wrapped before building
-- the gcloud argument vector.
def execute_command_text (command : String) (background : Bool) : String :=
  if background then
    "nohup " ++ command ++ " > /tmp/nohup.out 2>&1 & echo $!"
  else
    command

-- The gcloud ssh argument vector built in execute_command (lines
-- 142-153).
def ssh_args (project zone tpuName worker command : String) : List String :=
  ["gcloud", "compute", "tpus", "tpu-vm", "ssh", tpuName,
   "--zone=" ++ zone, "--worker=" ++ worker, "--project=" ++ project,
   "--command=" ++ command]

-- The background command prepared by the `run` command itself (lines
-- 417-420); `ts` models datetime.now().strftime of %Y%m%d_%H%M%S.
def run_background_cmd (command ts : String) : String :=
  "nohup " ++ command ++ " > /tmp/nohup_" ++ ts ++ ".out 2>&1 & echo $!"

-- The command text actually handed to gcloud for a background run:
-- `run` builds run_background_cmd and calls execute_command with
-- background=True, which rewrites it once more.
def remote_background_text (command ts : String) : String :=
  execute_command_text (run_background_cmd command ts) true

-- pid = stdout.decode().strip() on a zero exit (line 180).
def background_pid (stdout : String) : String := stdout.trim

-- ---------------------------------------------------------------------
-- Retry/timeout controller: the attempt loop of the `run` command
-- (source lines 413-514), captured/streamed (non-background) path.
-- ---------------------------------------------------------------------

-- What one awaited attempt produced: execute_command returned a
-- (returncode, stdout, stderr) tuple, asyncio.wait_for raised
-- TimeoutError, or some other exception was raised.
inductive AttemptResult where
  | completed (returncode : Int) (stdout stderr : String)
  | timedOut
  | raised (msg : String)
deriving DecidableEq

-- Observable events of the loop: a success, a logged nonzero-exit
-- failure (save_error_log on stderr), a logged timeout, an abort on a
-- generic exception (which breaks), and an inter-attempt
-- `await asyncio.sleep(delay)`.
inductive RunEvent where
  | succeeded (attempt : Nat)
  | attemptFailed (attempt : Nat) (returncode : Int)
  | timedOut (attempt : Nat)
  | aborted (attempt : Nat) (msg : String)
  | delayed (seconds : Nat)
deriving DecidableEq

inductive RunStatus where
  | succeeded
  | exhausted
  | aborted
deriving DecidableEq

-- The loop `for attempt in range(1, retry + 1)`, with `remaining` the
-- number of iterations still to run (including the current one); the
-- source's `attempt < retry` test is `1 ≤ remaining - 1`, i.e. the
-- current iteration is not the last.  A zero exit breaks with success;
-- a nonzero exit or a timeout falls through to the delay-or-finish
-- footer (lines 504-514); any other exception breaks immediately
-- (lines 495-502), with no delay.
def runSteps (exec : Nat → AttemptResult) (delayS : Nat) :
    Nat → Nat → List RunEvent × RunStatus
  | _, 0 => ([], .exhausted)
  | attempt, remaining + 1 =>
    match exec attempt with
    | .completed rc _ _ =>
      if rc = 0 then
        ([.succeeded attempt], .succeeded)
      else if remaining = 0 then
        ([.attemptFailed attempt rc], .exhausted)
      else
        let rest := runSteps exec delayS (attempt + 1) remaining
        (.attemptFailed attempt rc :: .delayed delayS :: rest.1, rest.2)
    | .timedOut =>
      if remaining = 0 then
        ([.timedOut attempt], .exhausted)
      else
        let rest := runSteps exec delayS (attempt + 1) remaining
        (.timedOut attempt :: .delayed delayS :: rest.1, rest.2)
    | .raised msg => ([.aborted attempt msg], .aborted)

def runLoop (exec : Nat → AttemptResult) (retry delayS : Nat) :
    List RunEvent × RunStatus :=
  runSteps exec delayS 1 retry

-- The failure kinds the loop retries: nonzero exit codes and timeouts.
def retryableFailure : AttemptResult → Bool
  | .completed rc _ _ => rc != 0
  | .timedOut => true
  | .raised _ => false

-- The event the loop records for a failing attempt result.
def failEvent (r : AttemptResult) (i : Nat) : RunEvent :=
  match r with
  | .completed rc _ _ => .attemptFailed i rc
  | .timedOut => .timedOut i
  | .raised m => .aborted i m

-- The trace of an all-failing run: one failure event per attempt with
-- one delay between consecutive attempts and none after the last.
def failTrace (exec : Nat → AttemptResult) (delayS : Nat) :
    Nat → Nat → List RunEvent
  | _, 0 => []
  | attempt, 1 => [failEvent (exec attempt) attempt]
  | attempt, remaining + 2 =>
    failEvent (exec attempt) attempt :: RunEvent.delayed delayS ::
      failTrace exec delayS (attempt + 1) (remaining + 1)

def isDelay : RunEvent → Bool
  | .delayed _ => true
  | _ => false

def attemptEvents (evs : List RunEvent) : List RunEvent :=
  evs.filter (fun e => !isDelay e)

def delayEvents (evs : List RunEvent) : List RunEvent :=
  evs.filter isDelay

-- The attempt index an event refers to, if any.
def eventIndex : RunEvent → Option Nat
  | .succeeded i => some i
  | .attemptFailed i _ => some i
  | .timedOut i => some i
  | .aborted i _ => some i
  | .delayed _ => none

def timeoutEvCount (evs : List RunEvent) : Nat :=
  (evs.filter (fun e => match e with | RunEvent.timedOut _ => true | _ => false)).length

-- What the awaited execute_command coroutine itself does: return a
-- tuple or raise.
inductive ExecResult where
  | returned (returncode : Int) (stdout stderr : String)
  | raised (msg : String)
deriving DecidableEq

def ofExec : ExecResult → AttemptResult
  | .returned rc o e => .completed rc o e
  | .raised m => .raised m

-- asyncio.wait_for: with timeout None it just awaits the coroutine;
-- with timeout t it raises TimeoutError when the coroutine has not
-- settled within t seconds (duration is the settle time).
def wait_for (timeout : Option Int) (duration : Int) (r : ExecResult) : AttemptResult :=
  match timeout with
  | none => ofExec r
  | some t => if t < duration then .timedOut else ofExec r

-- Line 382-383 of the source: `if timeout == -1: timeout = None`.
def timeoutOf (timeout : Int) : Option Int :=
  if timeout = -1 then none else some timeout

-- ---------------------------------------------------------------------
-- Kill commands (the `kill` CLI command, lines 553-575, and the
-- per-pid kill of `kill_tpu`, lines 737-745).
-- ---------------------------------------------------------------------

-- kill CLI: signal = "-9" if force else "-15".
def kill_signal (force : Bool) : String :=
  if force then "-9" else "-15"

-- kill CLI: command = f"kill -signal- -pids-".
def kill_command (force : Bool) (pids : String) : String :=
  "kill " ++ kill_signal force ++ " " ++ pids

-- kill_tpu: kill_cmd = f"kill -'-9' if force else ''- -pid-".
def kill_tpu_cmd (force : Bool) (pid : Int) : String :=
  "kill " ++ (if force then "-9" else "") ++ " " ++ toString pid

def listPrefixCheck : List Char → List Char → Bool
  | [], _ => true
  | _ :: _, [] => false
  | a :: as, b :: bs => a == b && listPrefixCheck as bs

def hasSubstringAux (pat : List Char) : List Char → Bool
  | [] => pat.isEmpty
  | c :: cs => listPrefixCheck pat (c :: cs) || hasSubstringAux pat cs

def strContains (s pat : String) : Bool :=
  hasSubstringAux pat.toList s.toList

-- ---------------------------------------------------------------------
-- Fleet fan-out scan (kill_tpu, lines 697-730).
-- ---------------------------------------------------------------------

-- A settled execute_command result tuple.
structure ExecOutcome where
  returncode : Int
  stdout : String
  stderr : String
deriving DecidableEq

-- Character-level models of str.splitlines, str.strip and int(),
-- written with structural recursion so that they evaluate.  The
-- discovery pipeline emits one pid per newline-terminated line.
def splitLines : List Char → List (List Char)
  | [] => [[]]
  | c :: cs =>
    if c = '\n' then [] :: splitLines cs
    else
      match splitLines cs with
      | [] => [[c]]
      | l :: ls => (c :: l) :: ls

def isSpaceChar (c : Char) : Bool :=
  c = ' ' || c = '\t' || c = '\n' || c = '\r' || c = '\x0b' || c = '\x0c'

def trimChars (l : List Char) : List Char :=
  ((l.dropWhile isSpaceChar).reverse.dropWhile isSpaceChar).reverse

def parseNatAux : Nat → List Char → Option Nat
  | acc, [] => some acc
  | acc, c :: cs =>
    if c.isDigit then parseNatAux (acc * 10 + (c.toNat - Char.toNat '0')) cs
    else none

def parseIntChars (l : List Char) : Option Int :=
  match l with
  | [] => none
  | c :: cs =>
    if c = '-' then
      match cs with
      | [] => none
      | _ => (parseNatAux 0 cs).map (fun n => -(n : Int))
    else (parseNatAux 0 l).map (fun n => (n : Int))

-- `[int(p.strip()) for p in stdout.splitlines() if p.strip()]`,
-- with `none` modelling the ValueError int() raises on a non-numeric
-- line.
def scan_parse (stdout : String) : Option (List Int) :=
  ((((splitLines stdout.toList).map trimChars).filter (fun l => l ≠ [])).mapM parseIntChars)

-- scan_worker (lines 697-706): on returncode 0 with non-blank stdout,
-- the parsed pid list; otherwise (w, []).  `none` models an exception
-- escaping the coroutine.
def scan_worker (exec : Nat → ExecOutcome) (w : Nat) : Option (Nat × List Int) :=
  let r := exec w
  if r.returncode = 0 ∧ trimChars r.stdout.toList ≠ [] then
    (scan_parse r.stdout).map (fun pids => (w, pids))
  else
    some (w, [])

-- asyncio.gather over scan_worker: any escaping exception aborts the
-- whole gather (propagated to the enclosing try).
def gather_scan (exec : Nat → ExecOutcome) : List Nat → Option (List (Nat × List Int))
  | [] => some []
  | w :: ws =>
    match scan_worker exec w, gather_scan exec ws with
    | some r, some rs => some (r :: rs)
    | _, _ => none

-- `{w: pids for w, pids in results if pids}` as an association list.
def drop_empty (results : List (Nat × List Int)) : List (Nat × List Int) :=
  results.filter (fun q => q.2 ≠ [])

-- `[p for p in pids if p in pid]`.
def apply_pid_filter (pidFilter : List Int) (pids : List Int) : List Int :=
  pids.filter (fun p => p ∈ pidFilter)

-- The `if pid:` filtering step (lines 724-730): skipped when no
-- explicit pid set was supplied.
def filter_step (pidFilter : List Int) (wp : List (Nat × List Int)) : List (Nat × List Int) :=
  if pidFilter = [] then wp
  else drop_empty (wp.map (fun q => (q.1, apply_pid_filter pidFilter q.2)))

-- Scan + drop-empty + optional filter: the mapping kill_tpu goes on to
-- kill from.
def fan_out_scan (exec : Nat → ExecOutcome) (workers : List Nat) (pidFilter : List Int) :
    Option (List (Nat × List Int)) :=
  (gather_scan exec workers).map (fun results => filter_step pidFilter (drop_empty results))

-- The claim's post-filter view of a worker's discovered pids.
def post_filter (pidFilter : List Int) (pids : List Int) : List Int :=
  if pidFilter = [] then pids else apply_pid_filter pidFilter pids

-- ---------------------------------------------------------------------
-- Slice status query (TPUManager.get_status, lines 103-130).
-- ---------------------------------------------------------------------

-- One describe invocation produces an ExecOutcome; json_loads models
-- json.loads (none = JSONDecodeError).  get_status consults exactly
-- one describe invocation (the second component counts them): on a
-- zero exit it returns the parsed descriptor, otherwise it raises
-- RuntimeError, and never retries.
def get_status {α : Type} (json_loads : String → Option α)
    (describe : Nat → ExecOutcome) : Except String α × Nat :=
  let r := describe 0
  (if r.returncode = 0 then
    match json_loads r.stdout with
    | some v => Except.ok v
    | none => Except.error "Expecting value"
  else
    Except.error ("Failed to get TPU status: " ++ r.stderr), 1)

-- ---------------------------------------------------------------------
-- Theorems
-- ---------------------------------------------------------------------

-- The stateful loop of list2cmdline agrees with the spec-side run
-- rewriting, for any pending backslash run.
theorem specEsc_eq_argLoop (quoted : Bool) :
    ∀ (cs : List Char) (bs : Nat),
      specEsc quoted bs cs =
        (argLoop bs cs).1 ++
          List.replicate (if quoted then (argLoop bs cs).2 * 2 else (argLoop bs cs).2) bsChar := by
  intro cs
  induction cs with
  | nil => intro bs; simp [specEsc, argLoop]
  | cons c cs ih =>
    intro bs
    by_cases hb : c = bsChar
    · subst hb; simp [specEsc, argLoop, ih]
    · by_cases hq : c = qChar
      · subst hq
        simp [specEsc, argLoop, hb, ih, List.append_assoc]
      · simp [specEsc, argLoop, hb, hq, ih, List.append_assoc]

theorem quoteArg_eq_spec (arg : List Char) : quoteArg arg = quoteArgSpec arg := by
  unfold quoteArg quoteArgSpec
  by_cases hq : needquote arg = true
  · rw [if_pos hq, if_pos hq, specEsc_eq_argLoop]
    rw [show (argLoop 0 arg).2 * 2 = (argLoop 0 arg).2 + (argLoop 0 arg).2 by ring]
    simp only [if_true, List.replicate_add, List.append_assoc]
  · rw [if_neg hq, if_neg hq, specEsc_eq_argLoop]
    simp

/-- Claim C6: for every ordered sequence of argument strings, list2cmdline
produces the single line described by the spec: exactly the arguments
containing a space or tab, or that are empty, are wrapped in double
quotes; a run of k backslashes immediately preceding a double quote
becomes 2k backslashes followed by an escaped quote; backslashes not
preceding a quote pass through literally; and a trailing run of
backslashes in a quoted argument is doubled before the closing quote.
Stated as: the code's builder coincides with the spec-side builder that
is written from exactly those rules. -/
theorem list2cmdline_matches_spec (seq : List (List Char)) :
    list2cmdline seq = list2cmdlineSpec seq := by
  unfold list2cmdline list2cmdlineSpec
  rw [show seq.map quoteArg = seq.map quoteArgSpec from
    List.map_congr_left (fun a _ => quoteArg_eq_spec a)]

/-- Claim C1 (code bug): in Background mode the command is wrapped
TWICE, not once: `run` pre-wraps it with the timestamped output file
and then calls execute_command with background=True, which wraps the
already-wrapped text again with /tmp/nohup.out.  At command "sleep 5"
and timestamp 20250101_000000 the remotely executed text is the
double-wrapped form and differs from the single rewriting the claim
describes. -/
theorem background_command_double_wrapped :
    remote_background_text "sleep 5" "20250101_000000" =
      "nohup nohup sleep 5 > /tmp/nohup_20250101_000000.out 2>&1 & echo $! > /tmp/nohup.out 2>&1 & echo $!" ∧
    remote_background_text "sleep 5" "20250101_000000" ≠
      run_background_cmd "sleep 5" "20250101_000000" := by
  exact ⟨rfl, by decide⟩

/-- Claim C3 (counterexample): the claim is false as stated: for a
kill_tpu termination of discovered pid 1234 with force=false, the
command issued is "kill  1234" - the signal flag is omitted entirely,
so the termination command does not use "-15". -/
theorem kill_tpu_omits_sigterm_flag :
    kill_tpu_cmd false 1234 = "kill  1234" ∧
    strContains (kill_tpu_cmd false 1234) "-15" = false := by
  exact ⟨rfl, by decide⟩

/-- Claim C3 (amended): the `kill` CLI command uses signal -15 when
force is false and -9 when force is true; the fleet kill_tpu path uses
-9 when force is true but omits the signal flag (relying on kill's
default SIGTERM) when force is false; and a force kill on discovered
pid 1234 at worker 2 issues the termination command "kill -9 1234"
against worker selector "2". -/
theorem kill_signal_selection (pids : String) (p : Int) (project zone name : String) :
    kill_command false pids = "kill -15 " ++ pids ∧
    kill_command true pids = "kill -9 " ++ pids ∧
    kill_tpu_cmd true p = "kill -9 " ++ toString p ∧
    kill_tpu_cmd false p = "kill  " ++ toString p ∧
    kill_tpu_cmd true 1234 = "kill -9 1234" ∧
    "--worker=2" ∈ ssh_args project zone name (toString (2 : Nat)) (kill_tpu_cmd true 1234) ∧
    "--command=kill -9 1234" ∈ ssh_args project zone name (toString (2 : Nat)) (kill_tpu_cmd true 1234) := by
  refine ⟨rfl, rfl, rfl, rfl, rfl, ?_, ?_⟩
  · show "--worker=2" ∈ ["gcloud", "compute", "tpus", "tpu-vm", "ssh", name,
      "--zone=" ++ zone, "--worker=" ++ toString (2 : Nat), "--project=" ++ project,
      "--command=" ++ kill_tpu_cmd true 1234]
    simp only [List.mem_cons]
    exact Or.inr (Or.inr (Or.inr (Or.inr (Or.inr (Or.inr (Or.inr (Or.inl rfl)))))))
  · show "--command=kill -9 1234" ∈ ["gcloud", "compute", "tpus", "tpu-vm", "ssh", name,
      "--zone=" ++ zone, "--worker=" ++ toString (2 : Nat), "--project=" ++ project,
      "--command=" ++ kill_tpu_cmd true 1234]
    simp only [List.mem_cons]
    exact Or.inr (Or.inr (Or.inr (Or.inr (Or.inr (Or.inr (Or.inr (Or.inr (Or.inr (Or.inl rfl)))))))))

-- One-step unfolding of the attempt loop.
theorem runSteps_succ (exec : Nat → AttemptResult) (delayS a rem : Nat) :
    runSteps exec delayS a (rem + 1) =
      match exec a with
      | .completed rc _ _ =>
        if rc = 0 then ([.succeeded a], .succeeded)
        else if rem = 0 then ([.attemptFailed a rc], .exhausted)
        else (.attemptFailed a rc :: .delayed delayS :: (runSteps exec delayS (a + 1) rem).1,
              (runSteps exec delayS (a + 1) rem).2)
      | .timedOut =>
        if rem = 0 then ([.timedOut a], .exhausted)
        else (.timedOut a :: .delayed delayS :: (runSteps exec delayS (a + 1) rem).1,
              (runSteps exec delayS (a + 1) rem).2)
      | .raised msg => ([.aborted a msg], .aborted) := rfl

-- An all-failing run produces exactly the failure trace: one failure
-- event per attempt, one delay between consecutive attempts, and the
-- exhausted status.
theorem runSteps_allfail (exec : Nat → AttemptResult) (delayS : Nat) :
    ∀ (r a : Nat),
      (∀ i, a ≤ i → i < a + (r + 1) → retryableFailure (exec i) = true) →
      runSteps exec delayS a (r + 1) = (failTrace exec delayS a (r + 1), RunStatus.exhausted) := by
  intro r
  induction r with
  | zero =>
    intro a h
    have ha := h a (le_refl a) (by omega)
    cases hx : exec a with
    | completed rc o e =>
      have hrc : ¬rc = 0 := by
        rw [hx] at ha
        simpa [retryableFailure] using ha
      rw [runSteps_succ, hx]
      simp [hrc, failTrace, failEvent, hx]
    | timedOut =>
      rw [runSteps_succ, hx]
      simp [failTrace, failEvent, hx]
    | raised m =>
      rw [hx] at ha
      simp [retryableFailure] at ha
  | succ r ih =>
    intro a h
    have ha := h a (le_refl a) (by omega)
    have hrest := ih (a + 1) (fun i h1 h2 => h i (by omega) (by omega))
    have hu : failTrace exec delayS a (r + 1 + 1) =
        failEvent (exec a) a :: RunEvent.delayed delayS :: failTrace exec delayS (a + 1) (r + 1) := rfl
    cases hx : exec a with
    | completed rc o e =>
      have hrc : ¬rc = 0 := by
        rw [hx] at ha
        simpa [retryableFailure] using ha
      rw [runSteps_succ, hx, hu]
      simp [hrc, hrest, failEvent, hx]
    | timedOut =>
      rw [runSteps_succ, hx, hu]
      simp [hrest, failEvent, hx]
    | raised m =>
      rw [hx] at ha
      simp [retryableFailure] at ha

theorem isDelay_failEvent (r : AttemptResult) (i : Nat) : isDelay (failEvent r i) = false := by
  cases r <;> simp [failEvent, isDelay]

theorem isDelay_delayed (s : Nat) : isDelay (RunEvent.delayed s) = true := rfl

theorem failTrace_attempt_count (exec : Nat → AttemptResult) (delayS : Nat) :
    ∀ (r a : Nat), (attemptEvents (failTrace exec delayS a (r + 1))).length = r + 1 := by
  intro r
  induction r with
  | zero =>
    intro a
    simp [failTrace, attemptEvents, isDelay_failEvent]
  | succ r ih =>
    intro a
    have h2 := ih (a + 1)
    have hu : failTrace exec delayS a (r + 1 + 1) =
        failEvent (exec a) a :: RunEvent.delayed delayS :: failTrace exec delayS (a + 1) (r + 1) := rfl
    simp only [attemptEvents] at h2 ⊢
    rw [hu]
    simp [List.filter_cons, isDelay_failEvent, isDelay_delayed, h2]

theorem failTrace_delay_events (exec : Nat → AttemptResult) (delayS : Nat) :
    ∀ (r a : Nat),
      delayEvents (failTrace exec delayS a (r + 1)) =
        List.replicate r (RunEvent.delayed delayS) := by
  intro r
  induction r with
  | zero =>
    intro a
    simp [failTrace, delayEvents, isDelay_failEvent]
  | succ r ih =>
    intro a
    have h2 := ih (a + 1)
    have hu : failTrace exec delayS a (r + 1 + 1) =
        failEvent (exec a) a :: RunEvent.delayed delayS :: failTrace exec delayS (a + 1) (r + 1) := rfl
    simp only [delayEvents] at h2 ⊢
    rw [hu]
    simp [List.filter_cons, isDelay_failEvent, isDelay_delayed, h2, List.replicate_succ]

theorem failTrace_ne_nil (exec : Nat → AttemptResult) (delayS : Nat) :
    ∀ (r a : Nat), failTrace exec delayS a (r + 1) ≠ [] := by
  intro r a
  cases r <;> simp [failTrace]

theorem failTrace_getLast (exec : Nat → AttemptResult) (delayS : Nat) :
    ∀ (r a : Nat),
      (failTrace exec delayS a (r + 1)).getLast? =
        some (failEvent (exec (a + r)) (a + r)) := by
  intro r
  induction r with
  | zero => intro a; simp [failTrace]
  | succ r ih =>
    intro a
    have hu : failTrace exec delayS a (r + 1 + 1) =
        failEvent (exec a) a :: RunEvent.delayed delayS :: failTrace exec delayS (a + 1) (r + 1) := rfl
    rw [hu]
    cases hT : failTrace exec delayS (a + 1) (r + 1) with
    | nil => exact absurd hT (failTrace_ne_nil exec delayS r (a + 1))
    | cons x xs =>
      rw [List.getLast?_cons_cons, List.getLast?_cons_cons, ← hT, ih (a + 1),
        show a + 1 + r = a + (r + 1) by omega]

/-- Claim C2: for every retry policy with maxAttempts N ≥ 1 and a
command failing with a retryable failure (nonzero exit or timeout) on
every attempt, the controller performs exactly N attempts, with
exactly N-1 inter-attempt delays each of exactly delaySeconds, no
delay after the final attempt (the last event is the final attempt's
failure), and ends exhausted. -/
theorem run_retry_exhaustion (exec : Nat → AttemptResult) (N delayS : Nat)
    (hN : 1 ≤ N)
    (hfail : ∀ i, 1 ≤ i → i ≤ N → retryableFailure (exec i) = true) :
    (runLoop exec N delayS).2 = RunStatus.exhausted ∧
    (attemptEvents (runLoop exec N delayS).1).length = N ∧
    delayEvents (runLoop exec N delayS).1 = List.replicate (N - 1) (RunEvent.delayed delayS) ∧
    (runLoop exec N delayS).1.getLast? = some (failEvent (exec N) N) := by
  obtain ⟨r, rfl⟩ : ∃ r, N = r + 1 := ⟨N - 1, by omega⟩
  have h := runSteps_allfail exec delayS r 1 (fun i h1 h2 => hfail i h1 (by omega))
  unfold runLoop
  rw [h]
  refine ⟨rfl, failTrace_attempt_count exec delayS r 1, ?_, ?_⟩
  · rw [failTrace_delay_events exec delayS r 1]
    simp
  · rw [failTrace_getLast exec delayS r 1, show 1 + r = r + 1 by omega]

-- A raised (non-timeout) exception ends the loop at once, regardless
-- of how many attempts remain.
theorem runSteps_raised (exec : Nat → AttemptResult) (delayS a r : Nat) (msg : String)
    (hx : exec a = AttemptResult.raised msg) :
    runSteps exec delayS a (r + 1) = ([RunEvent.aborted a msg], RunStatus.aborted) := by
  rw [runSteps_succ, hx]

/-- Claim C4: a failure to launch the local gcloud process surfaces as
a raised exception, an outcome distinct from a completed run with a
nonzero exit code; the raised exception is never retried (one attempt,
immediate Aborted), whereas a nonzero remote exit is retried up to the
policy limit (N attempts, Exhausted). -/
theorem launch_failure_vs_remote_exit (msg o e : String) (rc : Int) (N delayS : Nat)
    (hN : 1 ≤ N) (hrc : rc ≠ 0) :
    AttemptResult.raised msg ≠ AttemptResult.completed rc o e ∧
    runLoop (fun _ => AttemptResult.raised msg) N delayS =
      ([RunEvent.aborted 1 msg], RunStatus.aborted) ∧
    (attemptEvents (runLoop (fun _ => AttemptResult.completed rc o e) N delayS).1).length = N ∧
    (runLoop (fun _ => AttemptResult.completed rc o e) N delayS).2 = RunStatus.exhausted := by
  obtain ⟨r, rfl⟩ : ∃ r, N = r + 1 := ⟨N - 1, by omega⟩
  have hall := runSteps_allfail (fun _ => AttemptResult.completed rc o e) delayS r 1
    (fun i _ _ => by simpa [retryableFailure] using hrc)
  refine ⟨by simp, ?_, ?_, ?_⟩
  · exact runSteps_raised (fun _ => AttemptResult.raised msg) delayS 1 r msg rfl
  · unfold runLoop
    rw [hall]
    exact failTrace_attempt_count (fun _ => AttemptResult.completed rc o e) delayS r 1
  · unfold runLoop
    rw [hall]

/-- Claim C8: an attempt that raises a non-timeout runtime error sends
the controller directly to the Aborted terminal state with no further
attempts, even when attempts remain; and the retryable failures are
exactly the ordinary nonzero exit codes and the timeouts. -/
theorem nontimeout_error_aborts (exec : Nat → AttemptResult) (delayS attempt r : Nat) (msg : String)
    (hx : exec attempt = AttemptResult.raised msg) :
    runSteps exec delayS attempt (r + 1) = ([RunEvent.aborted attempt msg], RunStatus.aborted) ∧
    retryableFailure (AttemptResult.raised msg) = false ∧
    (∀ b, retryableFailure b = true ↔
      b = AttemptResult.timedOut ∨
        ∃ rc o e, b = AttemptResult.completed rc o e ∧ rc ≠ 0) := by
  refine ⟨runSteps_raised exec delayS attempt r msg hx, rfl, ?_⟩
  intro b
  cases b with
  | completed rc o e =>
    simp only [retryableFailure]
    constructor
    · intro h
      exact Or.inr ⟨rc, o, e, rfl, by simpa using h⟩
    · rintro (h | ⟨rc', o', e', heq, hne⟩)
      · exact absurd h (by simp)
      · obtain ⟨h1, h2, h3⟩ := AttemptResult.completed.inj heq
        subst h1
        simpa using hne
  | timedOut => simp [retryableFailure]
  | raised m => simp [retryableFailure]

-- Every indexed event in the trace from attempt `a` onwards refers to
-- an attempt ≥ a.
theorem runSteps_event_indices (exec : Nat → AttemptResult) (delayS : Nat) :
    ∀ (r a : Nat) (ev : RunEvent), ev ∈ (runSteps exec delayS a r).1 →
      ∀ i, eventIndex ev = some i → a ≤ i := by
  intro r
  induction r with
  | zero =>
    intro a ev h
    simp [runSteps] at h
  | succ r ih =>
    intro a ev h i hi
    cases hx : exec a with
    | completed rc o e =>
      by_cases hrc : rc = 0
      · rw [runSteps_succ, hx] at h
        simp [hrc] at h
        subst h
        simp [eventIndex] at hi
        omega
      · by_cases hr : r = 0
        · rw [runSteps_succ, hx] at h
          simp [hrc, hr] at h
          subst h
          simp [eventIndex] at hi
          omega
        · rw [runSteps_succ, hx] at h
          simp [hrc, hr] at h
          rcases h with h | h | h
          · subst h; simp [eventIndex] at hi; omega
          · subst h; simp [eventIndex] at hi
          · have := ih (a + 1) ev h i hi
            omega
    | timedOut =>
      by_cases hr : r = 0
      · rw [runSteps_succ, hx] at h
        simp [hr] at h
        subst h
        simp [eventIndex] at hi
        omega
      · rw [runSteps_succ, hx] at h
        simp [hr] at h
        rcases h with h | h | h
        · subst h; simp [eventIndex] at hi; omega
        · subst h; simp [eventIndex] at hi
        · have := ih (a + 1) ev h i hi
          omega
    | raised m =>
      rw [runSteps_succ, hx] at h
      simp at h
      subst h
      simp [eventIndex] at hi
      omega

/-- Claim C7: a Captured-mode attempt whose per-attempt deadline
timeoutSeconds elapses before the command settles transitions to
TimedOut: the attempt's event is a TimedOut record, no
RemoteExitFailure (attemptFailed) is recorded for that attempt, and
when attempts remain the controller goes on to execute exactly the
remaining attempts (the trace continues with the loop run from the
next attempt). -/
theorem timeout_attempt_retries (exec : Nat → AttemptResult) (delayS attempt r : Nat)
    (t dur : Int) (res : ExecResult)
    (hexec : exec attempt = wait_for (some t) dur res) (hlt : t < dur) :
    (runSteps exec delayS attempt (r + 1)).1.head? = some (RunEvent.timedOut attempt) ∧
    (∀ rc, RunEvent.attemptFailed attempt rc ∉ (runSteps exec delayS attempt (r + 1)).1) ∧
    (r = 0 → runSteps exec delayS attempt (r + 1) =
      ([RunEvent.timedOut attempt], RunStatus.exhausted)) ∧
    (1 ≤ r → runSteps exec delayS attempt (r + 1) =
      (RunEvent.timedOut attempt :: RunEvent.delayed delayS ::
        (runSteps exec delayS (attempt + 1) r).1,
       (runSteps exec delayS (attempt + 1) r).2)) := by
  have hx : exec attempt = AttemptResult.timedOut := by
    rw [hexec]
    simp [wait_for, hlt]
  by_cases hr : r = 0
  · subst hr
    rw [runSteps_succ, hx]
    refine ⟨rfl, ?_, fun _ => rfl, by omega⟩
    intro rc h
    simp at h
  · constructor
    · rw [runSteps_succ, hx]
      simp [hr]
    · constructor
      · intro rc h
        rw [runSteps_succ, hx] at h
        simp [hr] at h
        have := runSteps_event_indices exec delayS r (attempt + 1)
          (RunEvent.attemptFailed attempt rc) h attempt rfl
        omega
      · refine ⟨fun h0 => absurd h0 hr, fun _ => ?_⟩
        rw [runSteps_succ, hx]
        simp [hr]

-- If no attempt ever times out, the trace holds no TimedOut event.
theorem runSteps_no_timeout_events (exec : Nat → AttemptResult) (delayS : Nat)
    (hnt : ∀ i, exec i ≠ AttemptResult.timedOut) :
    ∀ (r a : Nat), timeoutEvCount (runSteps exec delayS a r).1 = 0 := by
  intro r
  induction r with
  | zero => intro a; simp [runSteps, timeoutEvCount]
  | succ r ih =>
    intro a
    cases hx : exec a with
    | completed rc o e =>
      by_cases hrc : rc = 0
      · rw [runSteps_succ, hx]
        simp [hrc, timeoutEvCount]
      · by_cases hr : r = 0
        · rw [runSteps_succ, hx]
          simp [hrc, hr, timeoutEvCount]
        · rw [runSteps_succ, hx]
          have h2 := ih (a + 1)
          simp only [timeoutEvCount] at h2 ⊢
          simp [hrc, hr, List.filter_cons, h2]
    | timedOut => exact absurd hx (hnt a)
    | raised m =>
      rw [runSteps_succ, hx]
      simp [timeoutEvCount]

/-- Claim C10: when the run command is invoked without an explicit
timeout, the default -1 is converted to an absent deadline (None), and
since asyncio.wait_for with timeout None simply awaits the coroutine,
no attempt can ever produce a TimedOut transition, whatever the
durations and results of the underlying commands. -/
theorem default_timeout_never_times_out (dur : Nat → Int) (res : Nat → ExecResult)
    (N delayS : Nat) :
    timeoutOf (-1) = none ∧
    timeoutEvCount
      (runLoop (fun i => wait_for (timeoutOf (-1)) (dur i) (res i)) N delayS).1 = 0 := by
  have hnt : ∀ i, wait_for (timeoutOf (-1)) (dur i) (res i) ≠ AttemptResult.timedOut := by
    intro i
    simp only [timeoutOf, if_pos rfl, wait_for]
    cases res i <;> simp [ofExec]
  exact ⟨rfl, runSteps_no_timeout_events _ delayS hnt N 1⟩

-- When every worker's scan settles, the gather returns one entry per
-- worker, in order.
theorem gather_scan_eq (exec : Nat → ExecOutcome) (disc : Nat → List Int) :
    ∀ workers : List Nat,
      (∀ w ∈ workers, scan_worker exec w = some (w, disc w)) →
      gather_scan exec workers = some (workers.map (fun w => (w, disc w))) := by
  intro workers
  induction workers with
  | nil => intro _; rfl
  | cons w ws ih =>
    intro h
    have hw := h w (by simp)
    have hws := ih (fun x hx => h x (by simp [hx]))
    simp [gather_scan, hw, hws]

-- A worker whose scan yielded a non-empty pid list had a zero exit.
theorem scan_worker_rc_zero (exec : Nat → ExecOutcome) (w : Nat) (pids : List Int)
    (h : scan_worker exec w = some (w, pids)) (hne : pids ≠ []) :
    (exec w).returncode = 0 := by
  by_contra hrc
  have hcond : ¬((exec w).returncode = 0 ∧ trimChars (exec w).stdout.toList ≠ []) :=
    fun hc => hrc hc.1
  simp only [scan_worker, if_neg hcond, Option.some.injEq, Prod.mk.injEq] at h
  exact hne h.2.symm

theorem mem_drop_empty_map (workers : List Nat) (disc : Nat → List Int)
    (w : Nat) (pids : List Int) :
    (w, pids) ∈ drop_empty (workers.map (fun x => (x, disc x))) ↔
      (w ∈ workers ∧ pids = disc w ∧ pids ≠ []) := by
  simp only [drop_empty, List.mem_filter, List.mem_map, decide_eq_true_eq, Prod.mk.injEq]
  constructor
  · rintro ⟨⟨x, hx, hxw, hxp⟩, hne⟩
    subst hxw
    exact ⟨hx, hxp.symm, hne⟩
  · rintro ⟨hw, hp, hne⟩
    exact ⟨⟨w, hw, rfl, hp.symm⟩, hne⟩

theorem mem_filter_step_ne (pidFilter : List Int) (h0 : pidFilter ≠ [])
    (l : List (Nat × List Int)) (w : Nat) (pids : List Int) :
    (w, pids) ∈ filter_step pidFilter l ↔
      ((∃ pids', (w, pids') ∈ l ∧ apply_pid_filter pidFilter pids' = pids) ∧ pids ≠ []) := by
  rw [filter_step, if_neg h0]
  simp only [drop_empty, List.mem_filter, List.mem_map, decide_eq_true_eq, Prod.mk.injEq]
  constructor
  · rintro ⟨⟨⟨w', pids'⟩, hq, hw', hp⟩, hne⟩
    subst hw'
    exact ⟨⟨pids', hq, hp⟩, hne⟩
  · rintro ⟨⟨pids', hq, hp⟩, hne⟩
    exact ⟨⟨⟨w, pids'⟩, hq, rfl, hp⟩, hne⟩

theorem apply_pid_filter_nil (pidFilter : List Int) : apply_pid_filter pidFilter [] = [] := rfl

/-- Claim C5: when the fan-out scan over a worker set of size K
settles (each worker's discovery settles on the pid list `disc w`),
the resulting mapping has at most K entries, and a worker is present
in it if and only if its discovery command succeeded (zero exit) and
produced at least one process id after intersecting with the
caller-supplied pid filter, when one is given. -/
theorem fanout_scan_entries (exec : Nat → ExecOutcome) (workers : List Nat)
    (pidFilter : List Int) (disc : Nat → List Int) (m : List (Nat × List Int))
    (hdisc : ∀ w ∈ workers, scan_worker exec w = some (w, disc w))
    (hm : fan_out_scan exec workers pidFilter = some m) :
    m.length ≤ workers.length ∧
    (∀ w : Nat, (∃ pids, (w, pids) ∈ m) ↔
      (w ∈ workers ∧ (exec w).returncode = 0 ∧ post_filter pidFilter (disc w) ≠ [])) := by
  have hg := gather_scan_eq exec disc workers hdisc
  rw [fan_out_scan, hg] at hm
  simp only [Option.map_some', Option.some.injEq] at hm
  subst hm
  constructor
  · by_cases h0 : pidFilter = []
    · rw [filter_step, if_pos h0]
      simp only [drop_empty]
      refine le_trans (List.length_filter_le _ _) ?_
      simp
    · rw [filter_step, if_neg h0]
      simp only [drop_empty]
      refine le_trans (List.length_filter_le _ _) ?_
      rw [List.length_map]
      refine le_trans (List.length_filter_le _ _) ?_
      simp
  · intro w
    by_cases h0 : pidFilter = []
    · rw [filter_step, if_pos h0]
      constructor
      · rintro ⟨pids, hmem⟩
        rw [mem_drop_empty_map] at hmem
        obtain ⟨hw, hp, hne⟩ := hmem
        subst hp
        refine ⟨hw, scan_worker_rc_zero exec w _ (hdisc w hw) hne, ?_⟩
        rw [post_filter, if_pos h0]
        exact hne
      · rintro ⟨hw, _, hne⟩
        rw [post_filter, if_pos h0] at hne
        exact ⟨disc w, (mem_drop_empty_map workers disc w (disc w)).mpr ⟨hw, rfl, hne⟩⟩
    · constructor
      · rintro ⟨pids, hmem⟩
        rw [mem_filter_step_ne pidFilter h0] at hmem
        obtain ⟨⟨pids', hq, hp⟩, hne⟩ := hmem
        rw [mem_drop_empty_map] at hq
        obtain ⟨hw, hp', hne'⟩ := hq
        subst hp'
        refine ⟨hw, scan_worker_rc_zero exec w _ (hdisc w hw) hne', ?_⟩
        rw [post_filter, if_neg h0, hp]
        exact hne
      · rintro ⟨hw, _, hne⟩
        rw [post_filter, if_neg h0] at hne
        have hdne : disc w ≠ [] := by
          intro hd
          rw [hd, apply_pid_filter_nil] at hne
          exact hne rfl
        refine ⟨apply_pid_filter pidFilter (disc w), ?_⟩
        rw [mem_filter_step_ne pidFilter h0]
        exact ⟨⟨disc w, (mem_drop_empty_map workers disc w (disc w)).mpr ⟨hw, rfl, hdne⟩, rfl⟩, hne⟩

/-- Claim C9: the slice status query consults the describe subcommand
exactly once (no retry), raises a hard error exactly when it exits
nonzero, and on a zero exit returns the parsed structured descriptor
(assuming the describe output contract: the structured output of a
zero exit parses). -/
theorem get_status_spec {α : Type} (json_loads : String → Option α)
    (describe : Nat → ExecOutcome)
    (hparse : (describe 0).returncode = 0 → (json_loads (describe 0).stdout).isSome = true) :
    (get_status json_loads describe).2 = 1 ∧
    ((∃ e, (get_status json_loads describe).1 = Except.error e) ↔
      (describe 0).returncode ≠ 0) ∧
    (∀ v, (describe 0).returncode = 0 → json_loads (describe 0).stdout = some v →
      (get_status json_loads describe).1 = Except.ok v) := by
  refine ⟨rfl, ?_, ?_⟩
  · by_cases hrc : (describe 0).returncode = 0
    · obtain ⟨v, hv⟩ := Option.isSome_iff_exists.mp (hparse hrc)
      simp [get_status, hrc, hv]
    · simp [get_status, hrc]
  · intro v hrc hv
    simp [get_status, hrc, hv]

-- Witness: three attempts of an always-failing command (exit code 1)
-- with zero delay.
theorem run_retry_exhaustion_witness :
    1 ≤ 3 ∧
    (∀ i, 1 ≤ i → i ≤ 3 →
      retryableFailure ((fun _ => AttemptResult.completed 1 "" "boom") i) = true) ∧
    ((runLoop (fun _ => AttemptResult.completed 1 "" "boom") 3 0).2 = RunStatus.exhausted ∧
     (attemptEvents (runLoop (fun _ => AttemptResult.completed 1 "" "boom") 3 0).1).length = 3 ∧
     delayEvents (runLoop (fun _ => AttemptResult.completed 1 "" "boom") 3 0).1 =
       List.replicate (3 - 1) (RunEvent.delayed 0) ∧
     (runLoop (fun _ => AttemptResult.completed 1 "" "boom") 3 0).1.getLast? =
       some (failEvent ((fun _ => AttemptResult.completed 1 "" "boom") 3) 3)) :=
  ⟨by decide, fun i _ _ => rfl,
    run_retry_exhaustion (fun _ => AttemptResult.completed 1 "" "boom") 3 0
      (by decide) (fun i _ _ => rfl)⟩

-- Witness: a spawn failure against a plain exit-1 failure, three
-- allowed attempts, zero delay.
theorem launch_failure_vs_remote_exit_witness :
    1 ≤ 3 ∧ (1 : Int) ≠ 0 ∧
    (AttemptResult.raised "spawn failed" ≠ AttemptResult.completed 1 "" "err" ∧
     runLoop (fun _ => AttemptResult.raised "spawn failed") 3 0 =
       ([RunEvent.aborted 1 "spawn failed"], RunStatus.aborted) ∧
     (attemptEvents (runLoop (fun _ => AttemptResult.completed 1 "" "err") 3 0).1).length = 3 ∧
     (runLoop (fun _ => AttemptResult.completed 1 "" "err") 3 0).2 = RunStatus.exhausted) :=
  ⟨by decide, by decide,
    launch_failure_vs_remote_exit "spawn failed" "" "err" 1 3 0 (by decide) (by decide)⟩

-- Witness: the spec scenario "sleep 100" with a 1-second per-attempt
-- deadline and a single allowed attempt: the run times out, records no
-- RemoteExitFailure, and exhausts.
theorem timeout_attempt_retries_witness :
    (fun _ => wait_for (some 1) 100 (ExecResult.returned 0 "" "")) 1 =
      wait_for (some 1) 100 (ExecResult.returned 0 "" "") ∧
    (1 : Int) < 100 ∧
    ((runSteps (fun _ => wait_for (some 1) 100 (ExecResult.returned 0 "" "")) 5 1 (0 + 1)).1.head? =
       some (RunEvent.timedOut 1) ∧
     (∀ rc, RunEvent.attemptFailed 1 rc ∉
       (runSteps (fun _ => wait_for (some 1) 100 (ExecResult.returned 0 "" "")) 5 1 (0 + 1)).1) ∧
     (0 = 0 → runSteps (fun _ => wait_for (some 1) 100 (ExecResult.returned 0 "" "")) 5 1 (0 + 1) =
       ([RunEvent.timedOut 1], RunStatus.exhausted)) ∧
     (1 ≤ 0 → runSteps (fun _ => wait_for (some 1) 100 (ExecResult.returned 0 "" "")) 5 1 (0 + 1) =
       (RunEvent.timedOut 1 :: RunEvent.delayed 5 ::
         (runSteps (fun _ => wait_for (some 1) 100 (ExecResult.returned 0 "" "")) 5 (1 + 1) 0).1,
        (runSteps (fun _ => wait_for (some 1) 100 (ExecResult.returned 0 "" "")) 5 (1 + 1) 0).2))) :=
  ⟨rfl, by decide,
    timeout_attempt_retries (fun _ => wait_for (some 1) 100 (ExecResult.returned 0 "" ""))
      5 1 0 1 100 (ExecResult.returned 0 "" "") rfl (by decide)⟩

-- Witness: an exception on the first of two allowed attempts aborts at
-- once.
theorem nontimeout_error_aborts_witness :
    (fun _ => AttemptResult.raised "boom") 1 = AttemptResult.raised "boom" ∧
    (runSteps (fun _ => AttemptResult.raised "boom") 5 1 (1 + 1) =
       ([RunEvent.aborted 1 "boom"], RunStatus.aborted) ∧
     retryableFailure (AttemptResult.raised "boom") = false ∧
     (∀ b, retryableFailure b = true ↔
       b = AttemptResult.timedOut ∨
         ∃ rc o e, b = AttemptResult.completed rc o e ∧ rc ≠ 0)) :=
  ⟨rfl, nontimeout_error_aborts (fun _ => AttemptResult.raised "boom") 5 1 1 "boom" rfl⟩

-- Witness: two workers, both discovering pids 12 and 34, no pid
-- filter.
theorem fanout_scan_entries_witness :
    (∀ w ∈ [0, 1], scan_worker (fun _ => ExecOutcome.mk 0 "12\n34" "") w =
      some (w, (fun _ => [(12 : Int), 34]) w)) ∧
    fan_out_scan (fun _ => ExecOutcome.mk 0 "12\n34" "") [0, 1] [] =
      some [(0, [12, 34]), (1, [12, 34])] ∧
    (([(0, [(12 : Int), 34]), (1, [12, 34])] : List (Nat × List Int)).length ≤
       ([0, 1] : List Nat).length ∧
     (∀ w : Nat, (∃ pids, (w, pids) ∈ ([(0, [(12 : Int), 34]), (1, [12, 34])] : List (Nat × List Int))) ↔
       (w ∈ [0, 1] ∧ ((fun _ => ExecOutcome.mk 0 "12\n34" "") w).returncode = 0 ∧
         post_filter [] ((fun _ => [(12 : Int), 34]) w) ≠ []))) :=
  ⟨by decide, by decide,
    fanout_scan_entries (fun _ => ExecOutcome.mk 0 "12\n34" "") [0, 1] []
      (fun _ => [12, 34]) [(0, [12, 34]), (1, [12, 34])] (by decide) (by decide)⟩

-- Witness: a zero-exit describe with parseable output.
theorem get_status_spec_witness :
    (((fun _ => ExecOutcome.mk 0 "parsed" "") 0).returncode = 0 →
      (((fun s => some s) : String → Option String)
        (((fun _ => ExecOutcome.mk 0 "parsed" "") 0).stdout)).isSome = true) ∧
    ((get_status (fun s => some s) (fun _ => ExecOutcome.mk 0 "parsed" "")).2 = 1 ∧
     ((∃ e, (get_status (fun s => some s) (fun _ => ExecOutcome.mk 0 "parsed" "")).1 =
        Except.error e) ↔
       ((fun _ => ExecOutcome.mk 0 "parsed" "") 0).returncode ≠ 0) ∧
     (∀ v, ((fun _ => ExecOutcome.mk 0 "parsed" "") 0).returncode = 0 →
       ((fun s => some s) : String → Option String)
         (((fun _ => ExecOutcome.mk 0 "parsed" "") 0).stdout) = some v →
       (get_status (fun s => some s) (fun _ => ExecOutcome.mk 0 "parsed" "")).1 =
         Except.ok v)) :=
  ⟨fun _ => rfl,
    get_status_spec (fun s => some s) (fun _ => ExecOutcome.mk 0 "parsed" "") (fun _ => rfl)⟩
